import Mathlib

/-!
Shallow embedding of the purge/condition verification workflow of the
AdminBot-Beano Telegram bot (src/Main.py), together with proofs about it.

Modelling conventions:
* JSON stores (`risk_data.json`, `conditions.json`, `disabled_commands.json`,
  `admins.json`) are association lists keyed by strings, mirroring Python
  dicts loaded from JSON.  Dict lookup `d.get(k, default)` is `alGet` plus
  `Option.getD`; dict assignment `d[k] = v` is `alSetD`; mutating a value
  obtained from `d.get(k)` in place and then saving the whole dict is
  `alSet` (replace the value at an existing key, no-op when the key is
  absent, since `get` does not insert).
* Telegram API calls are oracles passed as function parameters: deleting a
  message is `del : String → Nat → Bool` (`True` = the call succeeded,
  `False` = it raised and the exception was caught), posting media is
  `send : Risk → Option Nat` (`some mid` = a message with id `mid` was
  posted, `none` = nothing was posted or the call raised).
* `random.choice(xs)` is modelled by an arbitrary natural `pick`, choosing
  `xs[pick % len xs]`; `uuid.uuid4().hex[:5]` is an arbitrary string
  parameter `genId`.  Universally quantifying over these parameters covers
  every possible random draw.
* Messages sent to chats are recorded as a trace of `(chat id, text)`
  pairs; message *deletion* attempts made by the Finalize operation are
  recorded as a trace of `DeleteAttempt`s.
-/

namespace Beano

/-- One condition record as stored in `conditions.json`
(`src/Main.py` `addcondition_command`). -/
structure Cond where
  id : String
  text : String
  deriving Repr, DecidableEq

/-- One risk record as stored in `risk_data.json` (`src/Main.py`
`receive_media_handler`).  `posted_message_id` is `none` for JSON `null`;
`seerisk_messages` is the list of `(chat_id, message_id)` pairs recorded by
`/seerisk` (the key being absent in Python is modelled as `[]`).
Fields not read by the purge workflow (`risk_failed`, `timestamp`) are
omitted. -/
structure Risk where
  risk_id : String
  user_id : Nat
  username : String
  group_id : String
  media_type : String
  file_id : String
  posted_message_id : Option Nat
  purged : Bool
  seerisk_messages : List (Int × Nat)
  deriving Repr, DecidableEq

/-- The risk store: `risk_data.json`, a dict from `str(user_id)` to the
list of that user's risk records. -/
abbrev RiskData := List (String × List Risk)

/-- `conditions.json`: dict from group id to that group's condition list. -/
abbrev CondMap := List (String × List Cond)

/-- `disabled_commands.json`: dict from group id to disabled command names. -/
abbrev DisabledMap := List (String × List String)

/-- `admins.json`: admin ids mapped to the groups they administer.  JSON
keys are strings parsed with `int()` at use sites; we keep them as `Nat`. -/
abbrev AdminMap := List (Nat × List String)

/-- One attempted `bot.delete_message` call made by the Finalize
operation: target group, message id, and whether the call succeeded. -/
structure DeleteAttempt where
  group_id : String
  message_id : Nat
  ok : Bool
  deriving Repr, DecidableEq

/-- A message sent to a chat: recipient chat id and text. -/
structure Msg where
  chat_id : Nat
  text : String
  deriving Repr, DecidableEq

/-! ## Association-list dictionaries -/

/-- Python `d.get(k)`: first value stored under key `k`, if any. -/
def alGet {κ α : Type} [BEq κ] (l : List (κ × α)) (k : κ) : Option α :=
  (l.find? (fun p => p.1 == k)).map (fun p => p.2)

/-- Replace the value under an existing key `k` (Python: mutate the list
object obtained from `d.get(k)` in place, then save the dict).  When `k`
is absent this is the identity, since `get` does not insert. -/
def alSet {κ α : Type} [BEq κ] (l : List (κ × α)) (k : κ) (v : α) :
    List (κ × α) :=
  l.map (fun p => if p.1 == k then (k, v) else p)

/-- Python dict assignment `d[k] = v`: replace if present, append if new. -/
def alSetD {κ α : Type} [BEq κ] (l : List (κ × α)) (k : κ) (v : α) :
    List (κ × α) :=
  if (l.find? (fun p => p.1 == k)).isSome then alSet l k v else l ++ [(k, v)]

/-! ## Truthiness and per-group flags -/

/-- Python truthiness of `r.get('posted_message_id')`: `None` and `0` are
falsy, any other int is truthy. -/
def truthyMsgId : Option Nat → Bool
  | none => false
  | some m => m != 0

/-- `'purge' in disabled_commands.get(str(group_id), [])`
(`src/Main.py:1552,1589`). -/
def purgeDisabled (dis : DisabledMap) (gid : String) : Bool :=
  ((alGet dis gid).getD []).contains "purge"

/-- Truthiness of `conditions_data.get(group_id)` for a dict of lists
(`src/Main.py:1597`): present and non-empty. -/
def hasConditions (conds : CondMap) (gid : String) : Bool :=
  match alGet conds gid with
  | some cs => !cs.isEmpty
  | none => false

/-! ## The Finalize operation: `_delete_and_mark_risks` (src/Main.py:1446) -/

/-- Matches the record lookup
`next((r for r in user_risks if r['risk_id'] == risk_to_purge['risk_id']), None)`:
the predicate selecting records with a given risk id. -/
def hasId (rid : String) (r : Risk) : Bool := r.risk_id == rid

/-- The in-place mutation of `src/Main.py:1494-1497`: set `purged`, clear
`posted_message_id`, drop the `seerisk_messages` key. -/
def markPurged (r : Risk) : Risk :=
  { r with purged := true, posted_message_id := none, seerisk_messages := [] }

/-- Replace the first list element satisfying `p` by its image under `f`
(modelling an in-place mutation of the record found by `next(...)`). -/
def setFirst (p : Risk → Bool) (f : Risk → Risk) : List Risk → List Risk
  | [] => []
  | r :: rs => if p r then f r :: rs else r :: setFirst p f rs

/-- Process one record of the batch (one iteration of the loop at
`src/Main.py:1462-1497`): returns the updated user list, the success
increment, the failure increment, and the deletion attempts made.
The `edit_message_reply_markup` calls that strip taunt buttons are
external best-effort calls whose failures are swallowed; they change no
modelled state. -/
def processRisk (del : String → Nat → Bool) (risks : List Risk) (b : Risk) :
    List Risk × Nat × Nat × List DeleteAttempt :=
  match risks.find? (hasId b.risk_id) with
  | none => (risks, 0, 1, [])
  | some r =>
    let risks' := setFirst (hasId b.risk_id) markPurged risks
    match r.posted_message_id with
    | some mid =>
      if mid != 0 then
        let ok := del r.group_id mid
        (risks', if ok then 1 else 0, if ok then 0 else 1,
          [⟨r.group_id, mid, ok⟩])
      else (risks', 0, 0, [])
    | none => (risks', 0, 0, [])

/-- The whole loop of `src/Main.py:1462-1497` over the batch. -/
def runBatch (del : String → Nat → Bool) (risks : List Risk) :
    List Risk → List Risk × Nat × Nat × List DeleteAttempt
  | [] => (risks, 0, 0, [])
  | b :: bs =>
    let step := processRisk del risks b
    let rest := runBatch del step.1 bs
    (rest.1, step.2.1 + rest.2.1, step.2.2.1 + rest.2.2.1,
      step.2.2.2 ++ rest.2.2.2)

/-- Result of the Finalize operation. -/
structure FinalizeOut where
  success_count : Nat
  failure_count : Nat
  store : RiskData
  attempts : List DeleteAttempt
  deriving Repr, DecidableEq

/-- `_delete_and_mark_risks(risks_to_process, context)` (src/Main.py:1446):
loads the store, processes each batch record against the list stored under
the first record's user key, and saves.  `save_risk_data` is the atomic
whole-file write; it is modelled as the returned store value. -/
def delete_and_mark_risks (del : String → Nat → Bool) (batch : List Risk)
    (store : RiskData) : FinalizeOut :=
  match batch with
  | [] => ⟨0, 0, store, []⟩
  | b :: _ =>
    let key := toString b.user_id
    let user_risks := (alGet store key).getD []
    let res := runBatch del user_risks batch
    ⟨res.2.1, res.2.2.1, alSet store key res.1, res.2.2.2⟩


/-! ## User-initiated purge scan (`purge_command`, src/Main.py:1569-1628) -/

/-- `risks_to_purge` (src/Main.py:1574): the requester's records that are
posted (truthy `posted_message_id`) and not yet purged. -/
def risksToPurge (user_risks : List Risk) : List Risk :=
  user_risks.filter (fun r => truthyMsgId r.posted_message_id && !r.purged)

/-- The classification loop (src/Main.py:1587-1600): skip risks of groups
where purge is disabled, split the rest by whether the group currently has
conditions, producing `(risks_with_conditions, risks_without_conditions)`. -/
def classifyRisks (dis : DisabledMap) (conds : CondMap) :
    List Risk → List Risk × List Risk
  | [] => ([], [])
  | r :: rs =>
    let rest := classifyRisks dis conds rs
    if purgeDisabled dis r.group_id then rest
    else if hasConditions conds r.group_id then (r :: rest.1, rest.2)
    else (rest.1, r :: rest.2)

/-- Modelled from the spec's words (the candidate set of a user purge
request): the requester's records that have a posted message id, are not
yet purged, and whose group has not disabled the purge capability.  Used
to compare the code's two lists against the spec's candidate set. -/
def specCandidates (dis : DisabledMap) (user_risks : List Risk) : List Risk :=
  user_risks.filter (fun r =>
    truthyMsgId r.posted_message_id && !r.purged
      && !purgeDisabled dis r.group_id)

/-! ## Admin-initiated purge (`purge_command`, src/Main.py:1526-1567) -/

/-- The "nothing to purge" reply of the admin branch (src/Main.py:1556). -/
def adminNoRisksText (target : String) : String :=
  "User " ++ target ++
    " has no risks that can be purged (they may all be in groups where /purge is disabled)."

/-- The summary replied to the initiating admin (src/Main.py:1561-1565):
it interpolates only the target user id and the two counts. -/
def adminSummaryText (target : String) (s f : Nat) : String :=
  "Purge complete for user " ++ target ++ ".\n" ++
  "✅ Successfully deleted " ++ toString s ++
    " posts and marked as purged.\n" ++
  "❌ Failed to delete " ++ toString f ++
    " posts (but they were still marked as purged)."

/-- Result of the admin purge branch. -/
structure AdminPurgeOut where
  processed : List Risk
  reply : String
  store : RiskData
  attempts : List DeleteAttempt
  deriving Repr, DecidableEq

/-- Admin purge branch of `purge_command` (src/Main.py:1546-1567), entered
after the target user id has been resolved from the command argument.
Admin purge considers all of the target's risks, filtered only by the
per-group disabled-command list. -/
def adminPurge (del : String → Nat → Bool) (dis : DisabledMap)
    (store : RiskData) (target : String) : AdminPurgeOut :=
  let user_risks := (alGet store target).getD []
  let risks_to_process :=
    user_risks.filter (fun r => !purgeDisabled dis r.group_id)
  if risks_to_process.isEmpty then
    ⟨[], adminNoRisksText target, store, []⟩
  else
    let out := delete_and_mark_risks del risks_to_process store
    ⟨risks_to_process,
      adminSummaryText target out.success_count out.failure_count,
      out.store, out.attempts⟩

/-! ## Conversation sessions and the verification workflow -/

/-- The purge-flow keys of one user's `context.user_data` dict; a `none`
field models the key being absent (the code only ever stores lists /
condition dicts under these keys, never `None`). -/
structure Session where
  risks_to_purge : Option (List Risk)
  risks_with_conditions : Option (List Risk)
  risks_without_conditions : Option (List Risk)
  current_condition : Option Cond
  deriving Repr, DecidableEq

/-- `context.application.user_data`: per-user-id session dicts. -/
abbrev Sessions := List (Nat × Session)



/-- A Telegram user object: the id plus the externally rendered
`mention_html()` string. -/
structure TgUser where
  id : Nat
  mention : String
  deriving Repr, DecidableEq

/-- Conversation-state constants returned by the purge handlers. -/
inductive ConvState
  | END
  | CONFIRM_PURGE
  | AWAIT_CONDITION_VERIFICATION
  deriving Repr, DecidableEq

/-- Group ids referenced by a batch
(`{risk['group_id'] for risk in risks_to_purge}`, src/Main.py:1640).
Python set iteration order is unspecified; we fix one enumeration of the
distinct ids. -/
def batchGroupIds (rtp : List Risk) : List String :=
  (rtp.map (fun r => r.group_id)).dedup

/-- `applicable_conditions` (src/Main.py:1642-1646): all conditions
registered for the groups referenced by the batch. -/
def applicableConditions (conds : CondMap) (rtp : List Risk) : List Cond :=
  (batchGroupIds rtp).foldr (fun g acc => ((alGet conds g).getD []) ++ acc) []

/-- Safeguard reply when the batch is empty (src/Main.py:1635). -/
def noConditionRisksText : String :=
  "No risks requiring a condition were found to purge."

/-- src/Main.py:1650. -/
def proceedDirectText : String :=
  "No conditions were found for the relevant groups. Proceeding with purge directly..."

/-- The direct-purge report (src/Main.py:1655-1659). -/
def purgeCompleteText (s f : Nat) : String :=
  "Purge process is complete.\n✅ Successfully deleted " ++ toString s ++
    " posts.\n❌ Failed to delete " ++ toString f ++
    " posts (they were still marked as purged)."

/-- The condition notice sent to the requester (src/Main.py:1671-1675);
HTML-escaping of the condition text is presentational and kept verbatim. -/
def conditionNoticeText (c : Cond) : String :=
  "An admin has been sent the following condition to verify:\n\n<b>Condition:</b> " ++
    c.text ++
    "\n\nPlease wait for an admin to confirm that you have met this condition."

/-- The approve/deny prompt sent to admins (src/Main.py:1690-1695). -/
def verifyRequestText (u : TgUser) (c : Cond) : String :=
  "🚨 <b>Purge Verification Request</b> 🚨\n\nUser " ++ u.mention ++
    " (<code>" ++ toString u.id ++
    "</code>) is requesting to purge their risks.\n\n<b>Condition to verify:</b>\n<i>" ++
    c.text ++ "</i>\n\nPlease confirm whether the user has met this condition."

/-- Admin ids notified (src/Main.py:1679-1686): admins of any group of the
batch, plus the owner (`is_owner(OWNER_ID)` is trivially true). -/
def notifiedAdmins (admins : AdminMap) (ownerId : Nat) (rtp : List Risk) :
    List Nat :=
  (((admins.filter (fun p =>
      p.2.any (fun g => (batchGroupIds rtp).contains g))).map
        (fun p => p.1)) ++ [ownerId]).dedup

/-- Result of `send_random_condition`. -/
structure SRCOut where
  sess : Session
  store : RiskData
  msgs : List Msg
  attempts : List DeleteAttempt
  state : ConvState
  deriving Repr, DecidableEq

/-- `send_random_condition` (src/Main.py:1630-1703).  `pick` models the
`random.choice` draw: the chosen condition is `applicable[pick % len]`.
When no condition is registered for any relevant group, the batch is
finalized directly and the purge-flow session keys are popped
(`current_condition` is not popped on this path, matching the code). -/
def send_random_condition (del : String → Nat → Bool) (pick : Nat)
    (ownerId : Nat) (admins : AdminMap) (conds : CondMap) (u : TgUser)
    (sess : Session) (store : RiskData) : SRCOut :=
  let rtp := sess.risks_to_purge.getD []
  if rtp.isEmpty then
    ⟨sess, store, [⟨u.id, noConditionRisksText⟩], [], ConvState.END⟩
  else
    let applicable := applicableConditions conds rtp
    if applicable.isEmpty then
      let out := delete_and_mark_risks del rtp store
      ⟨{ sess with
          risks_to_purge := none
          risks_with_conditions := none
          risks_without_conditions := none },
        out.store,
        [⟨u.id, proceedDirectText⟩,
         ⟨u.id, purgeCompleteText out.success_count out.failure_count⟩],
        out.attempts, ConvState.END⟩
    else
      let c := applicable.getD (pick % applicable.length) ⟨"", ""⟩
      ⟨{ sess with current_condition := some c },
        store,
        ⟨u.id, conditionNoticeText c⟩ ::
          (notifiedAdmins admins ownerId rtp).map
            (fun a => ⟨a, verifyRequestText u c⟩),
        [], ConvState.AWAIT_CONDITION_VERIFICATION⟩

/-- An admin's decision on a verification prompt. -/
inductive Decision
  | approve
  | deny
  deriving Repr, DecidableEq

/-- src/Main.py:1764. -/
def invalidRequestText : String :=
  "This purge request is no longer valid or has been cancelled by the user."

/-- The report sent to the requester on approval (src/Main.py:1776-1780). -/
def approveReportText (s f : Nat) : String :=
  "An admin has approved your request.\n✅ Successfully deleted " ++
    toString s ++ " posts and marked as purged.\n❌ Failed to delete " ++
    toString f ++ " posts (but they were still marked as purged)."

/-- src/Main.py:1791. -/
def denyNoticeText : String :=
  "An admin has denied your request. You will now be given a new condition."

/-- Edit applied to the admin's prompt on approval (src/Main.py:1770). -/
def approvedEditText (orig mention : String) : String :=
  orig ++ "\n\n---\n✅ Approved by " ++ mention

/-- Edit applied to the admin's prompt on denial (src/Main.py:1790). -/
def deniedEditText (orig mention : String) : String :=
  orig ++ "\n\n---\n❌ Denied by " ++ mention

/-- Result of `purge_verification_callback`. -/
structure VCOut where
  sessions : Sessions
  store : RiskData
  msgs : List Msg
  attempts : List DeleteAttempt
  edited : String
  deriving Repr, DecidableEq

/-- `purge_verification_callback` (src/Main.py:1749-1794), after the
callback payload has been parsed into a decision and the requester's user
id.  `origText` is the admin prompt's current text, `adminMention` the
deciding admin's rendered mention, `getChat` models
`context.bot.get_chat(user_id)` (assumed to succeed).  The guard
`not user_data or 'risks_to_purge' not in user_data` is equivalent to the
session being absent or its `risks_to_purge` key missing. -/
def purge_verification_callback (del : String → Nat → Bool) (pick : Nat)
    (ownerId : Nat) (admins : AdminMap) (conds : CondMap)
    (mentionOf : Nat → String) (origText adminMention : String)
    (ss : Sessions) (store : RiskData) (decision : Decision) (uid : Nat) :
    VCOut :=
  match alGet ss uid with
  | none => ⟨ss, store, [], [], invalidRequestText⟩
  | some sess =>
    match sess.risks_to_purge with
    | none => ⟨ss, store, [], [], invalidRequestText⟩
    | some rtp =>
      match decision with
      | Decision.approve =>
        let out := delete_and_mark_risks del rtp store
        ⟨alSet ss uid
            { risks_to_purge := none, risks_with_conditions := none,
              risks_without_conditions := none, current_condition := none },
          out.store,
          [⟨uid, approveReportText out.success_count out.failure_count⟩],
          out.attempts, approvedEditText origText adminMention⟩
      | Decision.deny =>
        let res := send_random_condition del pick ownerId admins conds
          ⟨uid, mentionOf uid⟩ sess store
        ⟨alSet ss uid res.sess, res.store,
          ⟨uid, denyNoticeText⟩ :: res.msgs, res.attempts,
          deniedEditText origText adminMention⟩

/-! ## Risk store load (`load_risk_data`, src/Main.py:164-178) -/

/-- Filesystem state relevant to `load_risk_data`: the content of
`risk_data.json` and of the quarantine file `risk_data.json.corrupted`
(`none` = the file does not exist).  File reads are modelled as total;
OS-level I/O faults are outside the model. -/
structure RiskFileState where
  main : Option String
  corrupted : Option String
  deriving Repr, DecidableEq

/-- `load_risk_data` (src/Main.py:164-178).  `parse` models `json.load`
(`none` = it raised `JSONDecodeError`), `renameOk` models whether the
quarantine `os.rename` succeeds (its `OSError` is caught and logged).
The `Except` result shape exposes the exception behaviour: an error
escaping the function would be `Except.error`. -/
def load_risk_data (parse : String → Option RiskData) (renameOk : Bool)
    (fs : RiskFileState) : Except String (RiskData × RiskFileState) :=
  match fs.main with
  | none => Except.ok ([], fs)
  | some content =>
    match parse content with
    | some d => Except.ok (d, fs)
    | none =>
      if renameOk then
        Except.ok ([], { main := none, corrupted := some content })
      else Except.ok ([], fs)

/-! ## Condition store add (`addcondition_command`, src/Main.py:455-488) -/

/-- Core of `addcondition_command` (src/Main.py:468-485): the generated id
(`uuid.uuid4().hex[:5]`, an arbitrary random 5-hex-char draw) is passed in
as `genId`; the new condition is appended to the group's list, the dict
entry is assigned and the store saved.  No check against existing ids is
performed. -/
def addConditionCore (genId : String) (text gid : String) (conds : CondMap) :
    CondMap :=
  alSetD conds gid (((alGet conds gid).getD []) ++ [⟨genId, text⟩])

/-! ## Posting callbacks (`post_risk_with_taunt_callback`, src/Main.py:1378) -/

/-- `post_risk_with_taunt_callback` (src/Main.py:1378-1439), after the
`posttaunt_{user}_{risk}` payload has been parsed into the stored user key
and risk id.  `send` models posting the media to the group (`some mid` =
posted as message `mid`; `none` = unknown media type, nothing posted, or
the send raised — in all of which the store is not written).  The handler
does not consult the record's `purged` flag. -/
def post_risk_with_taunt (send : Risk → Option Nat) (store : RiskData)
    (uidStr : String) (rid : String) : RiskData :=
  let user_risks := (alGet store uidStr).getD []
  match user_risks.find? (hasId rid) with
  | none => store
  | some r =>
    match send r with
    | some mid =>
      alSet store uidStr
        (setFirst (hasId rid)
          (fun x => { x with posted_message_id := some mid }) user_risks)
    | none => store

/-- The data-model invariant of one record: `purged = true` implies a null
published message reference. -/
def riskInv (r : Risk) : Bool := !r.purged || r.posted_message_id.isNone

/-- The invariant over the whole risk store. -/
def storeInv (store : RiskData) : Bool :=
  store.all (fun p => p.2.all riskInv)

/-- Key under which the Finalize operation reads and writes the store:
`str(risks_to_process[0]['user_id'])`. -/
def userKey : List Risk → String
  | [] => ""
  | b :: _ => toString b.user_id

/-- The user list the Finalize operation works on. -/
def storeRisks (store : RiskData) (batch : List Risk) : List Risk :=
  (alGet store (userKey batch)).getD []


/-! ## Dictionary lemmas -/

theorem alGet_cons {κ α : Type} [BEq κ] (p : κ × α) (rest : List (κ × α))
    (k : κ) :
    alGet (p :: rest) k = if p.1 == k then some p.2 else alGet rest k := by
  by_cases hk : (p.1 == k) = true
  · simp [alGet, List.find?_cons, hk]
  · simp [alGet, List.find?_cons, Bool.eq_false_iff.mpr hk, hk]

theorem alSet_cons {κ α : Type} [BEq κ] (p : κ × α) (rest : List (κ × α))
    (k : κ) (v : α) :
    alSet (p :: rest) k v = (if p.1 == k then (k, v) else p) :: alSet rest k v :=
  rfl

theorem alGet_alSet_present {κ α : Type} [BEq κ] [LawfulBEq κ]
    (l : List (κ × α)) (k : κ)
    (v : α) (h : (alGet l k).isSome) : alGet (alSet l k v) k = some v := by
  induction l with
  | nil => simp [alGet] at h
  | cons p rest ih =>
    rw [alSet_cons, alGet_cons]
    by_cases hk : (p.1 == k) = true
    · simp [hk]
    · rw [alGet_cons] at h
      simp only [hk, Bool.false_eq_true, if_false] at h ⊢
      exact ih h

theorem alSet_absent {κ α : Type} [BEq κ] (l : List (κ × α)) (k : κ) (v : α)
    (h : alGet l k = none) : alSet l k v = l := by
  induction l with
  | nil => rfl
  | cons p rest ih =>
    rw [alGet_cons] at h
    rw [alSet_cons]
    by_cases hk : (p.1 == k) = true
    · simp [hk] at h
    · simp only [hk, Bool.false_eq_true, if_false] at h ⊢
      rw [ih h]

theorem alGet_append_single {κ α : Type} [BEq κ] [LawfulBEq κ]
    (l : List (κ × α)) (k : κ)
    (v : α) (h : alGet l k = none) : alGet (l ++ [(k, v)]) k = some v := by
  induction l with
  | nil => simp [alGet_cons, alGet]
  | cons p rest ih =>
    rw [alGet_cons] at h
    rw [List.cons_append, alGet_cons]
    by_cases hk : (p.1 == k) = true
    · simp [hk] at h
    · simp only [hk, Bool.false_eq_true, if_false] at h ⊢
      exact ih h

theorem alGet_alSetD {κ α : Type} [BEq κ] [LawfulBEq κ]
    (l : List (κ × α)) (k : κ) (v : α) :
    alGet (alSetD l k v) k = some v := by
  by_cases h : (l.find? (fun p => p.1 == k)).isSome
  · have h' : (alGet l k).isSome := by
      simpa [alGet, Option.isSome_map] using h
    simpa [alSetD, h] using alGet_alSet_present l k v h'
  · have hf : l.find? (fun p => p.1 == k) = none :=
      Option.not_isSome_iff_eq_none.mp h
    have h' : alGet l k = none := by simp [alGet, hf]
    simpa [alSetD, h] using alGet_append_single l k v h'


/-! ### Lemmas about `setFirst` and `find?` -/

theorem setFirst_preserves_id (p : Risk → Bool) (f : Risk → Risk)
    (hf : ∀ r, (f r).risk_id = r.risk_id) (risks : List Risk) :
    (setFirst p f risks).map Risk.risk_id = risks.map Risk.risk_id := by
  induction risks with
  | nil => rfl
  | cons r rs ih =>
    by_cases hp : p r = true
    · simp [setFirst, hp, hf r]
    · simp [setFirst, hp, ih]

/-- After replacing the first record of one id, the first record found for
any id is either untouched or (for the same id) the image under `f`. -/
theorem find?_setFirst (cid i : String) (f : Risk → Risk)
    (hf : ∀ r, (f r).risk_id = r.risk_id) (risks : List Risk) :
    (setFirst (hasId cid) f risks).find? (hasId i) =
      if i = cid then ((risks.find? (hasId cid)).map f)
      else risks.find? (hasId i) := by
  induction risks with
  | nil => by_cases h : i = cid <;> simp [setFirst, h]
  | cons r rs ih =>
    by_cases hc : hasId cid r = true
    · have hrc : r.risk_id = cid := by simpa [hasId] using hc
      by_cases h : i = cid
      · subst h
        simp [setFirst, hc, List.find?_cons, hasId, hf r, hrc]
      · have hir : hasId i r = false := by
          simp [hasId, hrc]
          exact fun hh => h (hh ▸ rfl)
        have hir' : hasId i (f r) = false := by
          simp [hasId, hf r, hrc]
          exact fun hh => h (hh ▸ rfl)
        simp [setFirst, hc, List.find?_cons, hir, hir', h]
    · have hc' : hasId cid r = false := Bool.eq_false_iff.mpr hc
      by_cases h : i = cid
      · subst h
        simp [setFirst, hc, List.find?_cons, hc', ih]
      · by_cases hir : hasId i r = true
        · simp [setFirst, hc, List.find?_cons, hir, h]
        · simp [setFirst, hc, List.find?_cons, Bool.eq_false_iff.mpr hir,
            ih, h]

theorem markPurged_id (r : Risk) : (markPurged r).risk_id = r.risk_id := rfl

theorem processRisk_fst (del : String → Nat → Bool) (risks : List Risk)
    (b : Risk) :
    (processRisk del risks b).1 =
      if (risks.find? (hasId b.risk_id)).isSome then
        setFirst (hasId b.risk_id) markPurged risks
      else risks := by
  cases hf : risks.find? (hasId b.risk_id) with
  | none => simp [processRisk, hf]
  | some r =>
    cases hm : r.posted_message_id with
    | none => simp [processRisk, hf, hm]
    | some mid =>
      by_cases hz : (mid != 0) = true
      · simp [processRisk, hf, hm, hz]
      · simp [processRisk, hf, hm, Bool.eq_false_iff.mpr hz]

/-- The first record found for any id keeps its found/not-found status
across one batch step. -/
theorem processRisk_find?_isSome (del : String → Nat → Bool)
    (risks : List Risk) (b : Risk) (i : String) :
    (((processRisk del risks b).1.find? (hasId i)).isSome) =
      ((risks.find? (hasId i)).isSome) := by
  rw [processRisk_fst]
  by_cases hf : (risks.find? (hasId b.risk_id)).isSome
  · rw [if_pos hf, find?_setFirst b.risk_id i markPurged markPurged_id]
    by_cases h : i = b.risk_id
    · simp [h]
    · simp [h]
  · rw [if_neg hf]

/-- Per-step count accounting: the success increment is the number of
successful deletion attempts of the step, the failure increment is the
number of failed attempts plus one when the record was not found. -/
theorem processRisk_counts (del : String → Nat → Bool) (risks : List Risk)
    (b : Risk) :
    (processRisk del risks b).2.1 =
        ((processRisk del risks b).2.2.2.filter (fun a => a.ok)).length
    ∧ (processRisk del risks b).2.2.1 =
        ((processRisk del risks b).2.2.2.filter (fun a => a.ok = false)).length
          + (if (risks.find? (hasId b.risk_id)).isSome then 0 else 1) := by
  cases hf : risks.find? (hasId b.risk_id) with
  | none => simp [processRisk, hf]
  | some r =>
    cases hm : r.posted_message_id with
    | none => simp [processRisk, hf, hm]
    | some mid =>
      by_cases hz : (mid != 0) = true
      · cases hok : del r.group_id mid
        · simp [processRisk, hf, hm, hz, hok, List.filter]
        · simp [processRisk, hf, hm, hz, hok, List.filter]
      · simp [processRisk, hf, hm, Bool.eq_false_iff.mpr hz]

/-- The record first found under id `i` is purged with no posted message. -/
def PurgedAt (i : String) (risks : List Risk) : Prop :=
  ∀ r, risks.find? (hasId i) = some r →
    r.purged = true ∧ r.posted_message_id = none

theorem purgedAt_setFirst_self (i : String) (risks : List Risk) :
    PurgedAt i (setFirst (hasId i) markPurged risks) := by
  intro r hr
  rw [find?_setFirst i i markPurged markPurged_id, if_pos rfl] at hr
  cases hf : risks.find? (hasId i) with
  | none => rw [hf] at hr; simp at hr
  | some r0 =>
    rw [hf] at hr
    simp only [Option.map_some'] at hr
    cases hr
    exact ⟨rfl, rfl⟩

theorem purgedAt_processRisk (del : String → Nat → Bool) (risks : List Risk)
    (b : Risk) (i : String) (h : PurgedAt i risks) :
    PurgedAt i (processRisk del risks b).1 := by
  rw [processRisk_fst]
  by_cases hf : (risks.find? (hasId b.risk_id)).isSome
  · rw [if_pos hf]
    by_cases hib : i = b.risk_id
    · subst hib; exact purgedAt_setFirst_self _ risks
    · intro r hr
      rw [find?_setFirst b.risk_id i markPurged markPurged_id,
        if_neg hib] at hr
      exact h r hr
  · rw [if_neg hf]; exact h

theorem purgedAt_processRisk_self (del : String → Nat → Bool)
    (risks : List Risk) (b : Risk) :
    PurgedAt b.risk_id (processRisk del risks b).1 := by
  rw [processRisk_fst]
  by_cases hf : (risks.find? (hasId b.risk_id)).isSome
  · rw [if_pos hf]; exact purgedAt_setFirst_self _ risks
  · rw [if_neg hf]
    intro r hr
    rw [hr] at hf
    simp at hf

/-- Count accounting for a whole batch run. -/
theorem runBatch_counts (del : String → Nat → Bool) (bs : List Risk)
    (risks : List Risk) :
    (runBatch del risks bs).2.1 =
        ((runBatch del risks bs).2.2.2.filter (fun a => a.ok)).length
    ∧ (runBatch del risks bs).2.2.1 =
        ((runBatch del risks bs).2.2.2.filter (fun a => a.ok = false)).length
          + bs.countP (fun b => (risks.find? (hasId b.risk_id)).isNone) := by
  induction bs generalizing risks with
  | nil => simp [runBatch]
  | cons b rest ih =>
    have hstep := processRisk_counts del risks b
    have hrest := ih (processRisk del risks b).1
    constructor
    · simp only [runBatch, List.filter_append, List.length_append]
      rw [hstep.1, hrest.1]
    · simp only [runBatch, List.filter_append, List.length_append,
        List.countP_cons]
      rw [hstep.2, hrest.2]
      have hiso : ∀ c : Risk,
          (((processRisk del risks b).1.find? (hasId c.risk_id)).isNone) =
            ((risks.find? (hasId c.risk_id)).isNone) := by
        intro c
        rw [← Option.bnot_isSome, ← Option.bnot_isSome,
          processRisk_find?_isSome]
      have hcount : rest.countP
            (fun c => ((processRisk del risks b).1.find? (hasId c.risk_id)).isNone)
          = rest.countP (fun c => (risks.find? (hasId c.risk_id)).isNone) :=
        List.countP_congr (fun c _ => by rw [hiso c])
      rw [hcount]
      by_cases hf : (risks.find? (hasId b.risk_id)).isSome
      · have hn : (risks.find? (hasId b.risk_id)).isNone = false := by
          rw [← Option.bnot_isSome, hf]; rfl
        simp only [if_pos hf, hn, Bool.false_eq_true, if_false]
        omega
      · have hf' : (risks.find? (hasId b.risk_id)).isSome = false :=
          Bool.eq_false_iff.mpr hf
        have hn : (risks.find? (hasId b.risk_id)).isNone = true := by
          rw [← Option.bnot_isSome, hf']; rfl
        simp only [if_neg hf, hn, if_true]
        omega

theorem purgedAt_runBatch (del : String → Nat → Bool) (bs : List Risk)
    (risks : List Risk) (i : String) (h : PurgedAt i risks) :
    PurgedAt i (runBatch del risks bs).1 := by
  induction bs generalizing risks with
  | nil => exact h
  | cons c rest ih => exact ih _ (purgedAt_processRisk del risks c i h)

/-- Every batch record's first store match ends purged with no posted
message after the whole run, no matter how deletions went. -/
theorem runBatch_purged (del : String → Nat → Bool) (bs : List Risk)
    (risks : List Risk) (b : Risk) (hb : b ∈ bs) :
    PurgedAt b.risk_id (runBatch del risks bs).1 := by
  induction bs generalizing risks with
  | nil => cases hb
  | cons c rest ih =>
    rcases List.mem_cons.mp hb with hbc | hbr
    · subst hbc
      exact purgedAt_runBatch del rest _ _
        (purgedAt_processRisk_self del risks b)
    · exact ih _ hbr


/-! ## Further dictionary and list lemmas -/

theorem alGet_none_of_not_mem {κ α : Type} [BEq κ] [LawfulBEq κ]
    (l : List (κ × α)) (k : κ) (h : k ∉ l.map Prod.fst) : alGet l k = none := by
  induction l with
  | nil => rfl
  | cons p rest ih =>
    rw [alGet_cons]
    simp only [List.map_cons, List.mem_cons] at h
    push_neg at h
    have hk : (p.1 == k) = false := by
      rw [beq_eq_false_iff_ne]
      exact fun hh => h.1 hh.symm
    simp only [hk, Bool.false_eq_true, if_false]
    exact ih h.2

theorem alSet_self {κ α : Type} [BEq κ] [LawfulBEq κ] (l : List (κ × α))
    (k : κ) (v : α) (hnd : (l.map Prod.fst).Nodup)
    (hget : alGet l k = some v) : alSet l k v = l := by
  induction l with
  | nil => rfl
  | cons p rest ih =>
    rw [alGet_cons] at hget
    rw [alSet_cons]
    rw [List.map_cons] at hnd
    rcases List.nodup_cons.mp hnd with ⟨hp, hrest⟩
    by_cases hk : (p.1 == k) = true
    · have hpk : p.1 = k := eq_of_beq hk
      simp only [hk, if_true] at hget ⊢
      cases hget
      have hnone : alGet rest k = none := by
        apply alGet_none_of_not_mem
        rw [← hpk]
        exact hp
      rw [alSet_absent rest k _ hnone, ← hpk]
    · simp only [hk, Bool.false_eq_true, if_false] at hget ⊢
      rw [ih hrest hget]

theorem setFirst_eq_self (p : Risk → Bool) (f : Risk → Risk)
    (l : List Risk) (r : Risk) (hfind : l.find? p = some r)
    (hfr : f r = r) : setFirst p f l = l := by
  induction l with
  | nil => simp at hfind
  | cons x xs ih =>
    by_cases hx : p x = true
    · rw [List.find?_cons_of_pos _ hx] at hfind
      cases hfind
      simp [setFirst, hx, hfr]
    · have hx' : p x = false := Bool.eq_false_iff.mpr hx
      rw [List.find?_cons_of_neg _ hx] at hfind
      simp [setFirst, hx', ih hfind]

theorem markPurged_eq_self (r : Risk) (hp : r.purged = true)
    (hm : r.posted_message_id = none) (hs : r.seerisk_messages = []) :
    markPurged r = r := by
  cases r
  simp only [markPurged] at *
  simp_all

theorem runBatch_nil_risks (del : String → Nat → Bool) (bs : List Risk) :
    (runBatch del [] bs).1 = [] := by
  induction bs with
  | nil => rfl
  | cons b rest ih => simpa [runBatch, processRisk] using ih

/-- The user list read back from the saved store is the processed list. -/
theorem storeRisks_final (del : String → Nat → Bool) (store : RiskData)
    (b : Risk) (bs : List Risk) :
    storeRisks (delete_and_mark_risks del (b :: bs) store).store (b :: bs)
      = (runBatch del (storeRisks store (b :: bs)) (b :: bs)).1 := by
  cases hk : alGet store (toString b.user_id) with
  | some l =>
    have hsome : (alGet store (toString b.user_id)).isSome = true := by
      rw [hk]; rfl
    simp only [delete_and_mark_risks, storeRisks, userKey]
    rw [alGet_alSet_present _ _ _ hsome]
    simp [hk]
  | none =>
    simp only [delete_and_mark_risks, storeRisks, userKey]
    rw [alSet_absent _ _ _ hk, hk]
    simp only [Option.getD_none]
    rw [runBatch_nil_risks]

/-- The classification loop computes two complementary filters of the
purgeable list, with the disabled-group filter applied first. -/
theorem classifyRisks_eq (dis : DisabledMap) (conds : CondMap)
    (l : List Risk) :
    classifyRisks dis conds l =
      ((l.filter (fun r => !purgeDisabled dis r.group_id)).filter
          (fun r => hasConditions conds r.group_id),
       (l.filter (fun r => !purgeDisabled dis r.group_id)).filter
          (fun r => !hasConditions conds r.group_id)) := by
  induction l with
  | nil => rfl
  | cons r rs ih =>
    by_cases hd : purgeDisabled dis r.group_id = true
    · simp [classifyRisks, hd, List.filter_cons, ih]
    · have hd' : purgeDisabled dis r.group_id = false :=
        Bool.eq_false_iff.mpr hd
      by_cases hc : hasConditions conds r.group_id = true
      · simp [classifyRisks, hd', hc, List.filter_cons, ih]
      · have hc' : hasConditions conds r.group_id = false :=
          Bool.eq_false_iff.mpr hc
        simp [classifyRisks, hd', hc', List.filter_cons, ih]

/-- The spec's candidate set is the purgeable list with the disabled-group
filter applied. -/
theorem specCandidates_eq (dis : DisabledMap) (l : List Risk) :
    specCandidates dis l =
      (risksToPurge l).filter (fun r => !purgeDisabled dis r.group_id) := by
  simp only [specCandidates, risksToPurge, List.filter_filter]
  apply List.filter_congr
  intro r _
  rw [Bool.and_comm]

theorem getD_mem {α : Type} (l : List α) (n : Nat) (d : α)
    (h : l.isEmpty = false) : l.getD (n % l.length) d ∈ l := by
  have hlen : 0 < l.length := by
    cases l with
    | nil => simp at h
    | cons x xs => simp
  have hlt : n % l.length < l.length := Nat.mod_lt _ hlen
  rw [List.getD_eq_getElem l d hlt]
  exact l.getElem_mem hlt

/-! ## Claim theorems -/

/-- C1 (amended): in every Finalize batch the records are processed
independently — one record's deletion failure never stops the rest —
the returned success count is exactly the number of successful deletion
attempts, the returned failure count is exactly the number of failed
deletion attempts plus the number of batch records with no matching record
in the store, and every batch record found in the store ends with
`purged = true` and a cleared `posted_message_id` regardless of its
deletion outcome. -/
theorem delete_and_mark_risks_accounting (del : String → Nat → Bool)
    (store : RiskData) (batch : List Risk) :
    (delete_and_mark_risks del batch store).success_count =
        ((delete_and_mark_risks del batch store).attempts.filter
          (fun a => a.ok)).length
    ∧ (delete_and_mark_risks del batch store).failure_count =
        ((delete_and_mark_risks del batch store).attempts.filter
          (fun a => a.ok = false)).length
        + batch.countP (fun b =>
            ((storeRisks store batch).find? (hasId b.risk_id)).isNone)
    ∧ ∀ b ∈ batch,
        PurgedAt b.risk_id
          (storeRisks (delete_and_mark_risks del batch store).store batch) := by
  cases batch with
  | nil =>
    refine ⟨rfl, rfl, ?_⟩
    intro b hb
    cases hb
  | cons b bs =>
    have hc := runBatch_counts del (b :: bs) (storeRisks store (b :: bs))
    refine ⟨hc.1, hc.2, ?_⟩
    intro c hcmem
    rw [storeRisks_final]
    exact runBatch_purged del (b :: bs) _ c hcmem

/-- C1 witness: the claim's own example — one deletion succeeds and one
fails in the same batch; the result is the pair (1, 1) and both records
end purged with a cleared posted message id. -/
theorem delete_and_mark_risks_accounting_witness :
    (delete_and_mark_risks (fun _ m => m == 11)
        [⟨"r1", 7, "u", "g1", "photo", "f1", some 11, false, []⟩,
         ⟨"r2", 7, "u", "g1", "photo", "f2", some 12, false, []⟩]
        [("7", [⟨"r1", 7, "u", "g1", "photo", "f1", some 11, false, []⟩,
                ⟨"r2", 7, "u", "g1", "photo", "f2", some 12, false, []⟩])]
      ).success_count = 1
    ∧ (delete_and_mark_risks (fun _ m => m == 11)
        [⟨"r1", 7, "u", "g1", "photo", "f1", some 11, false, []⟩,
         ⟨"r2", 7, "u", "g1", "photo", "f2", some 12, false, []⟩]
        [("7", [⟨"r1", 7, "u", "g1", "photo", "f1", some 11, false, []⟩,
                ⟨"r2", 7, "u", "g1", "photo", "f2", some 12, false, []⟩])]
      ).failure_count = 1
    ∧ PurgedAt "r1"
        (storeRisks (delete_and_mark_risks (fun _ m => m == 11)
          [⟨"r1", 7, "u", "g1", "photo", "f1", some 11, false, []⟩,
           ⟨"r2", 7, "u", "g1", "photo", "f2", some 12, false, []⟩]
          [("7", [⟨"r1", 7, "u", "g1", "photo", "f1", some 11, false, []⟩,
                  ⟨"r2", 7, "u", "g1", "photo", "f2", some 12, false, []⟩])]
          ).store
          [⟨"r1", 7, "u", "g1", "photo", "f1", some 11, false, []⟩,
           ⟨"r2", 7, "u", "g1", "photo", "f2", some 12, false, []⟩])
    ∧ PurgedAt "r2"
        (storeRisks (delete_and_mark_risks (fun _ m => m == 11)
          [⟨"r1", 7, "u", "g1", "photo", "f1", some 11, false, []⟩,
           ⟨"r2", 7, "u", "g1", "photo", "f2", some 12, false, []⟩]
          [("7", [⟨"r1", 7, "u", "g1", "photo", "f1", some 11, false, []⟩,
                  ⟨"r2", 7, "u", "g1", "photo", "f2", some 12, false, []⟩])]
          ).store
          [⟨"r1", 7, "u", "g1", "photo", "f1", some 11, false, []⟩,
           ⟨"r2", 7, "u", "g1", "photo", "f2", some 12, false, []⟩]) := by
  have h := delete_and_mark_risks_accounting (fun _ m => m == 11)
    [("7", [⟨"r1", 7, "u", "g1", "photo", "f1", some 11, false, []⟩,
            ⟨"r2", 7, "u", "g1", "photo", "f2", some 12, false, []⟩])]
    [⟨"r1", 7, "u", "g1", "photo", "f1", some 11, false, []⟩,
     ⟨"r2", 7, "u", "g1", "photo", "f2", some 12, false, []⟩]
  refine ⟨h.1.trans (by decide), h.2.1.trans (by decide), ?_, ?_⟩
  · exact h.2.2 ⟨"r1", 7, "u", "g1", "photo", "f1", some 11, false, []⟩
      (by decide)
  · exact h.2.2 ⟨"r2", 7, "u", "g1", "photo", "f2", some 12, false, []⟩
      (by decide)

/-- C1 counterexample: for a batch whose single record has no match in the
store, Finalize returns the pair (0, 1) although no deletion was attempted
at all, so the returned failure count is not the number of failed
deletions. -/
theorem delete_and_mark_risks_missing_record_counts :
    (delete_and_mark_risks (fun _ _ => true)
        [⟨"r1", 7, "u", "g1", "photo", "f1", some 11, false, []⟩]
        []).success_count = 0
    ∧ (delete_and_mark_risks (fun _ _ => true)
        [⟨"r1", 7, "u", "g1", "photo", "f1", some 11, false, []⟩]
        []).failure_count = 1
    ∧ (delete_and_mark_risks (fun _ _ => true)
        [⟨"r1", 7, "u", "g1", "photo", "f1", some 11, false, []⟩]
        []).attempts = [] :=
  ⟨rfl, rfl, rfl⟩

/-- C7: running Finalize again on a record that is already purged — and,
per the data-model invariant, has a cleared `posted_message_id` (and no
recorded seerisk buttons) — is a no-op: no deletion is attempted, no count
is incremented, and the store is written back unchanged, so `purged` stays
true. -/
theorem finalize_already_purged_noop (del : String → Nat → Bool)
    (store : RiskData) (b r : Risk)
    (hnd : (store.map Prod.fst).Nodup)
    (hfind : (storeRisks store [b]).find? (hasId b.risk_id) = some r)
    (hp : r.purged = true) (hm : r.posted_message_id = none)
    (hs : r.seerisk_messages = []) :
    delete_and_mark_risks del [b] store = ⟨0, 0, store, []⟩ := by
  have huser : alGet store (toString b.user_id) = some (storeRisks store [b]) := by
    cases hk : alGet store (toString b.user_id) with
    | none =>
      exfalso
      have hempty : storeRisks store [b] = [] := by
        simp [storeRisks, userKey, hk]
      rw [hempty] at hfind
      simp at hfind
    | some l =>
      have hl : storeRisks store [b] = l := by
        simp [storeRisks, userKey, hk]
      rw [hl]
  have hmark : markPurged r = r := markPurged_eq_self r hp hm hs
  have hset : setFirst (hasId b.risk_id) markPurged (storeRisks store [b])
      = storeRisks store [b] := setFirst_eq_self _ _ _ r hfind hmark
  have hstore : alSet store (toString b.user_id) (storeRisks store [b])
      = store := alSet_self _ _ _ hnd huser
  have hur : (alGet store (toString b.user_id)).getD [] = storeRisks store [b] :=
    rfl
  have hpr : processRisk del (storeRisks store [b]) b
      = (storeRisks store [b], 0, 0, []) := by
    simp only [processRisk, hfind, hm, hset]
  have hrb : runBatch del (storeRisks store [b]) [b]
      = (storeRisks store [b], 0, 0, []) := by
    simp [runBatch, hpr]
  simp only [delete_and_mark_risks, hur, hrb, hstore]

/-- C7 witness: Finalize on a concrete already-purged record changes
nothing and counts nothing. -/
theorem finalize_already_purged_noop_witness :
    delete_and_mark_risks (fun _ _ => true)
        [⟨"r1", 7, "u", "g1", "photo", "f1", none, true, []⟩]
        [("7", [⟨"r1", 7, "u", "g1", "photo", "f1", none, true, []⟩])]
      = ⟨0, 0, [("7", [⟨"r1", 7, "u", "g1", "photo", "f1", none, true, []⟩])], []⟩ :=
  finalize_already_purged_noop (fun _ _ => true)
    [("7", [⟨"r1", 7, "u", "g1", "photo", "f1", none, true, []⟩])]
    ⟨"r1", 7, "u", "g1", "photo", "f1", none, true, []⟩
    ⟨"r1", 7, "u", "g1", "photo", "f1", none, true, []⟩
    (by decide) (by decide) rfl rfl rfl

/-- C3: a user purge request's candidate set is exactly the requester's
records that have a posted message id, are not yet purged, and whose group
has not disabled purge; no purge-disabled-group record appears in either
output list; and `risks_with_conditions` / `risks_without_conditions`
partition the candidate set exactly (each candidate lands in exactly one
list, by whether its group has at least one registered condition). -/
theorem purge_scan_partition (dis : DisabledMap) (conds : CondMap)
    (user_risks : List Risk) :
    (classifyRisks dis conds (risksToPurge user_risks)).1 =
        (specCandidates dis user_risks).filter
          (fun r => hasConditions conds r.group_id)
    ∧ (classifyRisks dis conds (risksToPurge user_risks)).2 =
        (specCandidates dis user_risks).filter
          (fun r => !hasConditions conds r.group_id)
    ∧ ((classifyRisks dis conds (risksToPurge user_risks)).1 ++
        (classifyRisks dis conds (risksToPurge user_risks)).2).Perm
          (specCandidates dis user_risks)
    ∧ (∀ r ∈ (classifyRisks dis conds (risksToPurge user_risks)).1,
        purgeDisabled dis r.group_id = false)
    ∧ (∀ r ∈ (classifyRisks dis conds (risksToPurge user_risks)).2,
        purgeDisabled dis r.group_id = false)
    ∧ (∀ r, ¬(r ∈ (classifyRisks dis conds (risksToPurge user_risks)).1 ∧
              r ∈ (classifyRisks dis conds (risksToPurge user_risks)).2)) := by
  rw [classifyRisks_eq, specCandidates_eq]
  refine ⟨rfl, rfl, ?_, ?_, ?_, ?_⟩
  · exact List.filter_append_perm _ _
  · intro r hr
    have hmem := (List.mem_filter.mp (List.mem_filter.mp hr).1).2
    simp only [Bool.not_eq_true'] at hmem
    exact hmem
  · intro r hr
    have hmem := (List.mem_filter.mp (List.mem_filter.mp hr).1).2
    simp only [Bool.not_eq_true'] at hmem
    exact hmem
  · intro r ⟨h1, h2⟩
    have hc1 := (List.mem_filter.mp h1).2
    have hc2 := (List.mem_filter.mp h2).2
    rw [hc1] at hc2
    simp at hc2

/-- C3 witness: a concrete three-record store — one record in a group
with a condition, one in a condition-less group, one in a purge-disabled
group — splits into the expected two singleton lists, which permute the
candidate set. -/
theorem purge_scan_partition_witness :
    (classifyRisks [("gC", ["purge"])] [("gA", [⟨"c1", "do X"⟩])]
        (risksToPurge
          [⟨"r1", 7, "u", "gA", "photo", "f1", some 11, false, []⟩,
           ⟨"r2", 7, "u", "gB", "photo", "f2", some 12, false, []⟩,
           ⟨"r3", 7, "u", "gC", "photo", "f3", some 13, false, []⟩])).1 =
      [⟨"r1", 7, "u", "gA", "photo", "f1", some 11, false, []⟩]
    ∧ (classifyRisks [("gC", ["purge"])] [("gA", [⟨"c1", "do X"⟩])]
        (risksToPurge
          [⟨"r1", 7, "u", "gA", "photo", "f1", some 11, false, []⟩,
           ⟨"r2", 7, "u", "gB", "photo", "f2", some 12, false, []⟩,
           ⟨"r3", 7, "u", "gC", "photo", "f3", some 13, false, []⟩])).2 =
      [⟨"r2", 7, "u", "gB", "photo", "f2", some 12, false, []⟩]
    ∧ ((classifyRisks [("gC", ["purge"])] [("gA", [⟨"c1", "do X"⟩])]
        (risksToPurge
          [⟨"r1", 7, "u", "gA", "photo", "f1", some 11, false, []⟩,
           ⟨"r2", 7, "u", "gB", "photo", "f2", some 12, false, []⟩,
           ⟨"r3", 7, "u", "gC", "photo", "f3", some 13, false, []⟩])).1 ++
       (classifyRisks [("gC", ["purge"])] [("gA", [⟨"c1", "do X"⟩])]
        (risksToPurge
          [⟨"r1", 7, "u", "gA", "photo", "f1", some 11, false, []⟩,
           ⟨"r2", 7, "u", "gB", "photo", "f2", some 12, false, []⟩,
           ⟨"r3", 7, "u", "gC", "photo", "f3", some 13, false, []⟩])).2).Perm
      (specCandidates [("gC", ["purge"])]
        [⟨"r1", 7, "u", "gA", "photo", "f1", some 11, false, []⟩,
         ⟨"r2", 7, "u", "gB", "photo", "f2", some 12, false, []⟩,
         ⟨"r3", 7, "u", "gC", "photo", "f3", some 13, false, []⟩]) := by
  refine ⟨by decide, by decide, ?_⟩
  exact (purge_scan_partition [("gC", ["purge"])] [("gA", [⟨"c1", "do X"⟩])]
    [⟨"r1", 7, "u", "gA", "photo", "f1", some 11, false, []⟩,
     ⟨"r2", 7, "u", "gB", "photo", "f2", some 12, false, []⟩,
     ⟨"r3", 7, "u", "gC", "photo", "f3", some 13, false, []⟩]).2.2.1

/-- C4 (amended): admin purge excludes records of purge-disabled groups
from processing, but its reply to the initiating admin interpolates only
the target user id and the two counts — it does not name the skipped
groups. -/
theorem admin_purge_disabled_filter (del : String → Nat → Bool)
    (dis : DisabledMap) (store : RiskData) (target : String) :
    (adminPurge del dis store target).processed =
        ((alGet store target).getD []).filter
          (fun r => !purgeDisabled dis r.group_id)
    ∧ (∀ r ∈ (adminPurge del dis store target).processed,
        purgeDisabled dis r.group_id = false)
    ∧ (adminPurge del dis store target).reply =
        (if (((alGet store target).getD []).filter
              (fun r => !purgeDisabled dis r.group_id)).isEmpty
         then adminNoRisksText target
         else adminSummaryText target
           (delete_and_mark_risks del
             (((alGet store target).getD []).filter
               (fun r => !purgeDisabled dis r.group_id)) store).success_count
           (delete_and_mark_risks del
             (((alGet store target).getD []).filter
               (fun r => !purgeDisabled dis r.group_id)) store).failure_count) := by
  by_cases he : (((alGet store target).getD []).filter
      (fun r => !purgeDisabled dis r.group_id)).isEmpty = true
  · have hnil : ((alGet store target).getD []).filter
        (fun r => !purgeDisabled dis r.group_id) = [] := by
      rwa [List.isEmpty_iff] at he
    refine ⟨?_, ?_, ?_⟩
    · simp [adminPurge, he, hnil]
    · intro r hr
      simp [adminPurge, he] at hr
    · simp [adminPurge, he, hnil]
  · have he' : (((alGet store target).getD []).filter
        (fun r => !purgeDisabled dis r.group_id)).isEmpty = false :=
      Bool.eq_false_iff.mpr he
    refine ⟨?_, ?_, ?_⟩
    · simp [adminPurge, he']
    · intro r hr
      simp only [adminPurge, he', Bool.false_eq_true, if_false] at hr
      have := (List.mem_filter.mp hr).2
      simpa using this
    · simp [adminPurge, he']

/-- C4 witness: for a concrete store with one record in a purge-disabled
group and one in an enabled group, only the enabled record is processed,
and it is indeed in a group with purge enabled. -/
theorem admin_purge_disabled_filter_witness :
    (adminPurge (fun _ _ => true) [("-100999", ["purge"])]
        [("7", [⟨"r1", 7, "u", "-100999", "photo", "f1", some 11, false, []⟩,
                ⟨"r2", 7, "u", "-42", "photo", "f2", some 12, false, []⟩])]
        "7").processed =
      [⟨"r2", 7, "u", "-42", "photo", "f2", some 12, false, []⟩]
    ∧ purgeDisabled [("-100999", ["purge"])] "-42" = false := by
  refine ⟨by decide, ?_⟩
  exact (admin_purge_disabled_filter (fun _ _ => true) [("-100999", ["purge"])]
      [("7", [⟨"r1", 7, "u", "-100999", "photo", "f1", some 11, false, []⟩,
              ⟨"r2", 7, "u", "-42", "photo", "f2", some 12, false, []⟩])]
      "7").2.1
    ⟨"r2", 7, "u", "-42", "photo", "f2", some 12, false, []⟩ (by decide)

/-- C4 counterexample: in a concrete admin purge that skips the disabled
group "-100999", the reply is exactly the counts message — a string that
does not mention the skipped group (or any group) at all. -/
theorem admin_purge_reply_omits_skipped_group :
    (adminPurge (fun _ _ => true) [("-100999", ["purge"])]
        [("7", [⟨"r1", 7, "u", "-100999", "photo", "f1", some 11, false, []⟩,
                ⟨"r2", 7, "u", "-42", "photo", "f2", some 12, false, []⟩])]
        "7").reply =
      "Purge complete for user 7.\n✅ Successfully deleted 1 posts and marked as purged.\n❌ Failed to delete 0 posts (but they were still marked as purged)."
    ∧ (adminPurge (fun _ _ => true) [("-100999", ["purge"])]
        [("7", [⟨"r1", 7, "u", "-100999", "photo", "f1", some 11, false, []⟩,
                ⟨"r2", 7, "u", "-42", "photo", "f2", some 12, false, []⟩])]
        "7").processed =
      [⟨"r2", 7, "u", "-42", "photo", "f2", some 12, false, []⟩] := by
  exact ⟨by decide, by decide⟩

/-- C2: the purged-implies-no-posted-message invariant is not preserved by
every operation: on a store satisfying the invariant, the taunt-post
callback run on an already-purged record (reachable through a stale
"Post with Taunt" button) attaches the new posted message id to it,
leaving the store in violation of the invariant. -/
theorem taunt_post_breaks_purged_invariant :
    storeInv [("7", [⟨"r1", 7, "u", "g1", "photo", "f1", none, true, []⟩])]
      = true
    ∧ storeInv (post_risk_with_taunt (fun _ => some 5)
        [("7", [⟨"r1", 7, "u", "g1", "photo", "f1", none, true, []⟩])]
        "7" "r1") = false
    ∧ post_risk_with_taunt (fun _ => some 5)
        [("7", [⟨"r1", 7, "u", "g1", "photo", "f1", none, true, []⟩])]
        "7" "r1" =
      [("7", [⟨"r1", 7, "u", "g1", "photo", "f1", some 5, true, []⟩])] :=
  ⟨by decide, by decide, by decide⟩

/-- C8: the risk-store load never raises: it always returns a value; a
missing data file yields the empty mapping with the filesystem untouched;
a file whose content fails to parse yields the empty mapping and, when the
rename succeeds, the corrupt content is quarantined aside. -/
theorem load_risk_data_never_raises (parse : String → Option RiskData)
    (renameOk : Bool) (fs : RiskFileState) :
    (∃ out, load_risk_data parse renameOk fs = Except.ok out)
    ∧ (fs.main = none → load_risk_data parse renameOk fs = Except.ok ([], fs))
    ∧ (∀ c, fs.main = some c → parse c = none →
        load_risk_data parse renameOk fs =
          Except.ok ([], if renameOk then ⟨none, some c⟩ else fs)) := by
  obtain ⟨m, cor⟩ := fs
  refine ⟨?_, ?_, ?_⟩
  · cases m with
    | none => exact ⟨([], ⟨none, cor⟩), rfl⟩
    | some c =>
      cases hp : parse c with
      | some d => exact ⟨(d, ⟨some c, cor⟩), by simp [load_risk_data, hp]⟩
      | none =>
        cases renameOk with
        | true => exact ⟨([], ⟨none, some c⟩), by simp [load_risk_data, hp]⟩
        | false => exact ⟨([], ⟨some c, cor⟩), by simp [load_risk_data, hp]⟩
  · intro hm
    cases hm
    rfl
  · intro c hm hp
    cases hm
    cases renameOk with
    | true => simp [load_risk_data, hp]
    | false => simp [load_risk_data, hp]

/-- C8 witness: loading a concrete corrupt file returns the empty mapping
and moves the content aside instead of raising. -/
theorem load_risk_data_never_raises_witness :
    load_risk_data (fun _ => none) true ⟨some "x", none⟩ =
      Except.ok ([], ⟨none, some "x"⟩) :=
  (load_risk_data_never_raises (fun _ => none) true ⟨some "x", none⟩).2.2
    "x" rfl rfl

/-- C9 (amended): adding a condition appends it, carrying the freshly
generated id, to the group's list and persists the updated mapping; the
generated 5-hex-char id is not checked against existing ids, so its
uniqueness within the group is not guaranteed. -/
theorem addcondition_appends (genId text gid : String) (conds : CondMap) :
    alGet (addConditionCore genId text gid conds) gid =
      some (((alGet conds gid).getD []) ++ [⟨genId, text⟩]) :=
  alGet_alSetD conds gid _

/-- C9 counterexample: two add operations whose random 5-hex-char draws
collide leave the group with two conditions sharing one id, so condition
ids are not unique within a group. -/
theorem addcondition_duplicate_ids :
    ((alGet (addConditionCore "abcde" "t2" "g"
        (addConditionCore "abcde" "t1" "g" [])) "g").getD []).map Cond.id =
      ["abcde", "abcde"]
    ∧ ¬(((alGet (addConditionCore "abcde" "t2" "g"
        (addConditionCore "abcde" "t1" "g" [])) "g").getD []).map
          Cond.id).Nodup :=
  ⟨by decide, by decide⟩

/-- C6: an approve/deny callback whose referenced purge request no longer
exists — the requester has no session, or the session has no
`risks_to_purge` key — only reports that the request is no longer valid:
the sessions, the risk store, the message traffic and the deletion
attempts are all unchanged, for either decision. -/
theorem invalid_callback_no_mutation (del : String → Nat → Bool)
    (pick ownerId : Nat) (admins : AdminMap) (conds : CondMap)
    (mentionOf : Nat → String) (origText adminMention : String)
    (ss : Sessions) (store : RiskData) (decision : Decision) (uid : Nat)
    (h : alGet ss uid = none ∨
      ∃ sess, alGet ss uid = some sess ∧ sess.risks_to_purge = none) :
    purge_verification_callback del pick ownerId admins conds mentionOf
        origText adminMention ss store decision uid =
      ⟨ss, store, [], [], invalidRequestText⟩ := by
  rcases h with h | ⟨sess, hs, hr⟩
  · simp [purge_verification_callback, h]
  · simp [purge_verification_callback, hs, hr]

/-- C6 witness: a concrete approve callback for a user with no session
leaves the (empty) session table and a one-record store untouched. -/
theorem invalid_callback_no_mutation_witness :
    purge_verification_callback (fun _ _ => true) 0 99 [] [] (fun _ => "m")
        "orig" "adm" []
        [("7", [⟨"r1", 7, "u", "g1", "photo", "f1", some 11, false, []⟩])]
        Decision.approve 7 =
      ⟨[], [("7", [⟨"r1", 7, "u", "g1", "photo", "f1", some 11, false, []⟩])],
        [], [], invalidRequestText⟩ :=
  invalid_callback_no_mutation (fun _ _ => true) 0 99 [] [] (fun _ => "m")
    "orig" "adm" []
    [("7", [⟨"r1", 7, "u", "g1", "photo", "f1", some 11, false, []⟩])]
    Decision.approve 7 (Or.inl rfl)

/-- C5 (amended): provided at least one condition is registered for some
group of the conditional batch at decision time, an admin's deny never
runs Finalize: the risk store is untouched and no deletion is attempted;
instead a condition belonging to the union over the batch's groups is
chosen by the random draw, stored as `current_condition`, the requester is
re-notified and the responsible admins receive a fresh approve/deny
prompt, the batch remaining pending in the session. -/
theorem deny_renotifies_when_conditions_exist (del : String → Nat → Bool)
    (pick ownerId : Nat) (admins : AdminMap) (conds : CondMap)
    (mentionOf : Nat → String) (origText adminMention : String)
    (ss : Sessions) (store : RiskData) (uid : Nat) (sess : Session)
    (rtp : List Risk)
    (hsess : alGet ss uid = some sess)
    (hrtp : sess.risks_to_purge = some rtp)
    (hne : rtp.isEmpty = false)
    (hconds : (applicableConditions conds rtp).isEmpty = false) :
    ∃ c, c ∈ applicableConditions conds rtp
    ∧ purge_verification_callback del pick ownerId admins conds mentionOf
        origText adminMention ss store Decision.deny uid =
      ⟨alSet ss uid { sess with current_condition := some c }, store,
        ⟨uid, denyNoticeText⟩ :: ⟨uid, conditionNoticeText c⟩ ::
          (notifiedAdmins admins ownerId rtp).map
            (fun a => ⟨a, verifyRequestText ⟨uid, mentionOf uid⟩ c⟩),
        [], deniedEditText origText adminMention⟩ := by
  refine ⟨(applicableConditions conds rtp).getD
      (pick % (applicableConditions conds rtp).length) ⟨"", ""⟩, ?_, ?_⟩
  · exact getD_mem _ _ _ hconds
  · simp [purge_verification_callback, hsess, hrtp, send_random_condition,
      hne, hconds]

/-- C5 witness: in a concrete state with two registered conditions, a deny
leaves the store alone, attempts no deletion, and re-notifies with one of
the two conditions. -/
theorem deny_renotifies_when_conditions_exist_witness :
    ∃ c, c ∈ applicableConditions [("g1", [⟨"c1", "x"⟩, ⟨"c2", "y"⟩])]
        [⟨"r1", 7, "u", "g1", "photo", "f1", some 11, false, []⟩]
    ∧ purge_verification_callback (fun _ _ => true) 0 99 []
        [("g1", [⟨"c1", "x"⟩, ⟨"c2", "y"⟩])] (fun _ => "m") "orig" "adm"
        [(7, ⟨some [⟨"r1", 7, "u", "g1", "photo", "f1", some 11, false, []⟩],
              none, none, none⟩)]
        [("7", [⟨"r1", 7, "u", "g1", "photo", "f1", some 11, false, []⟩])]
        Decision.deny 7 =
      ⟨alSet [(7, ⟨some [⟨"r1", 7, "u", "g1", "photo", "f1", some 11, false,
                []⟩], none, none, none⟩)] 7
          { (⟨some [⟨"r1", 7, "u", "g1", "photo", "f1", some 11, false, []⟩],
              none, none, none⟩ : Session) with current_condition := some c },
        [("7", [⟨"r1", 7, "u", "g1", "photo", "f1", some 11, false, []⟩])],
        ⟨7, denyNoticeText⟩ :: ⟨7, conditionNoticeText c⟩ ::
          (notifiedAdmins [] 99
            [⟨"r1", 7, "u", "g1", "photo", "f1", some 11, false, []⟩]).map
            (fun a => ⟨a, verifyRequestText ⟨7, "m"⟩ c⟩),
        [], deniedEditText "orig" "adm"⟩ :=
  deny_renotifies_when_conditions_exist (fun _ _ => true) 0 99 []
    [("g1", [⟨"c1", "x"⟩, ⟨"c2", "y"⟩])] (fun _ => "m") "orig" "adm"
    [(7, ⟨some [⟨"r1", 7, "u", "g1", "photo", "f1", some 11, false, []⟩],
          none, none, none⟩)]
    [("7", [⟨"r1", 7, "u", "g1", "photo", "f1", some 11, false, []⟩])]
    7
    ⟨some [⟨"r1", 7, "u", "g1", "photo", "f1", some 11, false, []⟩],
      none, none, none⟩
    [⟨"r1", 7, "u", "g1", "photo", "f1", some 11, false, []⟩]
    rfl rfl rfl (by decide)

/-- C5 counterexample: if every condition was removed before the admin
decides, a deny does run Finalize on the conditional batch — a deletion is
attempted and the record is marked purged in the store — so a deny does
not always merely re-notify. -/
theorem deny_without_conditions_finalizes :
    (purge_verification_callback (fun _ _ => true) 0 99 [] []
        (fun _ => "m") "orig" "adm"
        [(7, ⟨some [⟨"r1", 7, "u", "g1", "photo", "f1", some 11, false, []⟩],
              none, none, none⟩)]
        [("7", [⟨"r1", 7, "u", "g1", "photo", "f1", some 11, false, []⟩])]
        Decision.deny 7).attempts = [⟨"g1", 11, true⟩]
    ∧ (purge_verification_callback (fun _ _ => true) 0 99 [] []
        (fun _ => "m") "orig" "adm"
        [(7, ⟨some [⟨"r1", 7, "u", "g1", "photo", "f1", some 11, false, []⟩],
              none, none, none⟩)]
        [("7", [⟨"r1", 7, "u", "g1", "photo", "f1", some 11, false, []⟩])]
        Decision.deny 7).store =
      [("7", [⟨"r1", 7, "u", "g1", "photo", "f1", none, true, []⟩])] :=
  ⟨by decide, by decide⟩

/-- C10: entering condition selection with a non-empty conditional batch
but no condition registered for any of its groups skips admin verification
entirely: the batch is finalized at once, the requester is sent the
success/failure counts, the purge session keys are cleared, and the
conversation terminates. -/
theorem no_conditions_direct_finalize (del : String → Nat → Bool)
    (pick ownerId : Nat) (admins : AdminMap) (conds : CondMap) (u : TgUser)
    (sess : Session) (store : RiskData) (rtp : List Risk)
    (hrtp : sess.risks_to_purge = some rtp)
    (hne : rtp.isEmpty = false)
    (hconds : (applicableConditions conds rtp).isEmpty = true) :
    send_random_condition del pick ownerId admins conds u sess store =
      ⟨{ sess with
          risks_to_purge := none
          risks_with_conditions := none
          risks_without_conditions := none },
        (delete_and_mark_risks del rtp store).store,
        [⟨u.id, proceedDirectText⟩,
         ⟨u.id, purgeCompleteText
            (delete_and_mark_risks del rtp store).success_count
            (delete_and_mark_risks del rtp store).failure_count⟩],
        (delete_and_mark_risks del rtp store).attempts,
        ConvState.END⟩ := by
  simp [send_random_condition, hrtp, hne, hconds]

/-- C10 witness: a concrete conditional batch whose groups have no
conditions left is finalized directly; the requester gets the counts
message, the session risk keys are cleared and the flow ends. -/
theorem no_conditions_direct_finalize_witness :
    send_random_condition (fun _ _ => true) 0 99 [] [] ⟨7, "m"⟩
        ⟨some [⟨"r1", 7, "u", "g1", "photo", "f1", some 11, false, []⟩],
          none, none, none⟩
        [("7", [⟨"r1", 7, "u", "g1", "photo", "f1", some 11, false, []⟩])] =
      ⟨⟨none, none, none, none⟩,
        [("7", [⟨"r1", 7, "u", "g1", "photo", "f1", none, true, []⟩])],
        [⟨7, proceedDirectText⟩, ⟨7, purgeCompleteText 1 0⟩],
        [⟨"g1", 11, true⟩], ConvState.END⟩ := by
  have h := no_conditions_direct_finalize (fun _ _ => true) 0 99 [] []
    ⟨7, "m"⟩
    ⟨some [⟨"r1", 7, "u", "g1", "photo", "f1", some 11, false, []⟩],
      none, none, none⟩
    [("7", [⟨"r1", 7, "u", "g1", "photo", "f1", some 11, false, []⟩])]
    [⟨"r1", 7, "u", "g1", "photo", "f1", some 11, false, []⟩]
    rfl rfl rfl
  exact h.trans (by decide)

end Beano
